import Mathlib

/-!
Shallow embedding of the metadata-resolution and match-selection pipeline of
src/lyricfinder.py (functions normalize, infer_from_path, get_metadata,
choose_best_result, the lyrics-shape decision inside fetch_lyrics_from_lrclib,
and make_unsynced_lrc), together with theorems settling the frozen claims.

Strings are modelled as Lean String (a wrapper around List Char); Python
string operations (strip, lower, splitlines, the two regular expressions of
the source) are implemented character by character.  Python's str.lower and
whitespace classes are modelled for the ASCII range, which is where every
comparison of this program is exercised.
-/

namespace LyricFinder

/-- Python whitespace class (ASCII range), as matched by the regex class \s
and stripped by str.strip / str.rstrip. -/
def isPySpace (c : Char) : Bool :=
  c == ' ' || c == '\t' || c == '\n' || c == '\r' || c == '\x0b' || c == '\x0c'

/-- Python str.strip() on a character list: remove leading and trailing
whitespace. -/
def pyStrip (l : List Char) : List Char :=
  ((l.dropWhile isPySpace).reverse.dropWhile isPySpace).reverse

/-- Python str.rstrip() on a character list: remove trailing whitespace. -/
def pyRstrip (l : List Char) : List Char :=
  (l.reverse.dropWhile isPySpace).reverse

/-- String-level wrapper of pyStrip. -/
def pyStripS (s : String) : String := String.mk (pyStrip s.data)

/-- Replace each maximal run of whitespace by a single space, as in
re.sub of the pattern of one-or-more whitespace with a single space.
The Boolean argument records whether the previous character was part of a
whitespace run. -/
def collapseWsAux : Bool → List Char → List Char
  | _, [] => []
  | prevWs, c :: cs =>
    if isPySpace c then
      if prevWs then collapseWsAux true cs
      else ' ' :: collapseWsAux true cs
    else c :: collapseWsAux false cs

/-- Whitespace-run collapsing, entry point. -/
def pyCollapseWs (l : List Char) : List Char := collapseWsAux false l

/-- Embeds normalize of lyricfinder.py: collapse whitespace runs to single
spaces, strip, lowercase (ASCII model of str.lower). -/
def normalize (s : String) : String :=
  String.mk ((pyStrip (pyCollapseWs s.data)).map Char.toLower)

/-- Python truthiness of an optional string: None and the empty string are
falsy. -/
def truthy (o : Option String) : Bool :=
  match o with
  | some s => !s.data.isEmpty
  | none => false

/-- Python expression of the shape value-or-None applied to a string: the
empty string collapses to None. -/
def orNone (s : String) : Option String :=
  if s.data.isEmpty then none else some s

/-- Python expression of the shape value-or-None applied to an optional
string. -/
def orNoneO (o : Option String) : Option String :=
  match o with
  | some s => orNone s
  | none => none

/-- Python expression of the shape optional-or-default over strings:
a None or empty first operand falls through to the default. -/
def orStr (o : Option String) (d : String) : String :=
  match o with
  | some s => if s.data.isEmpty then d else s
  | none => d

/-- Index of the last occurrence of a dot in a character list
(Python str.rfind), counted from the front. -/
def rfindDot : List Char → Option Nat
  | [] => none
  | c :: cs =>
    match rfindDot cs with
    | some i => some (i + 1)
    | none => if c == '.' then some 0 else none

/-- Python pathlib stem of a file name: the name without its final
suffix; a dot at position 0 or at the very end does not start a suffix. -/
def pyStem (name : List Char) : List Char :=
  match rfindDot name with
  | some i => if 0 < i ∧ i < name.length - 1 then name.take i else name
  | none => name

/-- String-level wrapper of pyStem. -/
def pyStemS (s : String) : String := String.mk (pyStem s.data)

/-- Remove one final newline character, modelling that the dollar anchor of
a Python regex also matches just before a newline that ends the string. -/
def dropFinalNewline (l : List Char) : List Char :=
  match l.getLast? with
  | some c => if c == '\n' then l.dropLast else l
  | none => l

/-- Embeds the case-insensitive full match of the disc-folder pattern of
infer_from_path: the letters cd, optional whitespace, one or more digits,
end of string. -/
def matchesCdDisc (s : List Char) : Bool :=
  match dropFinalNewline s with
  | c :: d :: rest =>
    (c == 'c' || c == 'C') && (d == 'd' || d == 'D') &&
      (let digits := rest.dropWhile isPySpace
       !digits.isEmpty && digits.all Char.isDigit)
  | _ => false

/-- Embeds the track-number-stripping regex match of infer_from_path
(optional whitespace, digits, optional whitespace, one of dash underscore
dot, optional whitespace, captured nonempty remainder, end).  Returns the
captured group when the regex matches.  The dot of the capture does not
match a newline, and the final anchor also matches just before a trailing
newline; greediness makes the match deterministic except that, when only
whitespace follows the separator, the capture backtracks to the final
character. -/
def trackNumTail (stem_clean : List Char) : Option (List Char) :=
  let body := dropFinalNewline stem_clean
  let t1 := body.dropWhile isPySpace
  let digits := t1.takeWhile Char.isDigit
  if digits.isEmpty then none
  else
    let t2 := (t1.dropWhile Char.isDigit).dropWhile isPySpace
    match t2 with
    | c :: rest =>
      if c == '-' || c == '_' || c == '.' then
        let t4 := rest.dropWhile isPySpace
        if !t4.isEmpty then
          if t4.contains '\n' then none else some t4
        else
          match rest.getLast? with
          | some lc => if lc == '\n' then none else some [lc]
          | none => none
      else none
    | [] => none

/-- Python substring membership test for a pattern inside a list. -/
def listHasSub (pat : List Char) : List Char → Bool
  | [] => pat.isEmpty
  | c :: cs => pat.isPrefixOf (c :: cs) || listHasSub pat cs

/-- Python split with count one: split on the first occurrence of the
pattern, returning the parts before and after it.  When the pattern does
not occur the whole input is returned on the left. -/
def splitOnce (pat : List Char) : List Char → List Char × List Char
  | [] => ([], [])
  | c :: cs =>
    if pat.isPrefixOf (c :: cs) then ([], (c :: cs).drop pat.length)
    else
      let p := splitOnce pat cs
      (c :: p.1, p.2)

/-- The literal separator of the filename split in infer_from_path. -/
def sepDash : List Char := [' ', '-', ' ']

/-- Embeds infer_from_path of lyricfinder.py.  The first argument is the
list of path segments of the file relative to the library root (the
segments of the path itself when it is not under the root), the second the
pathlib stem of the path; both are functions of the two path arguments of
the source. -/
def infer_from_path (rel_parts : List String) (stem : String) :
    Option String × Option String × Option String :=
  let artist0 : Option String := rel_parts.head?
  let album0 : Option String :=
    match rel_parts with
    | _ :: b :: rest =>
      match rest with
      | c :: _ => if matchesCdDisc c.data then some (b ++ " " ++ c) else some b
      | [] => some b
    | _ => none
  let stem_clean : List Char := stem.data.map (fun c => if c == '_' then ' ' else c)
  let title0 : List Char :=
    match trackNumTail stem_clean with
    | some g => pyStrip g
    | none => pyStrip stem_clean
  let split := splitOnce sepDash stem_clean
  let artist1 : Option String :=
    if listHasSub sepDash stem_clean && !truthy artist0 then
      some (String.mk (pyStrip split.1))
    else artist0
  let title1 : List Char :=
    if listHasSub sepDash stem_clean && !truthy artist0 then
      if !(pyStrip split.2).isEmpty then pyStrip split.2 else title0
    else title0
  (orNoneO artist1, orNone (String.mk title1), orNoneO album0)

/-- Tag data delivered by the external tag reader for one audio file, at
the boundary where get_metadata consumes it: the three string tag fields
after the first-entry extraction of the source, and the duration after
rounding, each absent when unavailable. -/
structure AudioFileData where
  title : Option String
  artist : Option String
  album : Option String
  length : Option Nat
  deriving DecidableEq

/-- Embeds get_metadata of lyricfinder.py.  The first argument is the
outcome of the guarded external tag-reader call: an exception, or no
recognized container, or tag data; the try-except of the source maps the
exception case to the no-data case.  Path inference fills each field whose
tag value is absent or empty, and duration passes through unchanged. -/
def get_metadata (readResult : Except Unit (Option AudioFileData))
    (rel_parts : List String) (stem : String) :
    Option String × Option String × Option String × Option Nat :=
  let audio : Option AudioFileData :=
    match readResult with
    | Except.error _ => none
    | Except.ok a => a
  let title : Option String := match audio with | some a => a.title | none => none
  let artist : Option String := match audio with | some a => a.artist | none => none
  let album : Option String := match audio with | some a => a.album | none => none
  let duration : Option Nat := match audio with | some a => a.length | none => none
  let inf := infer_from_path rel_parts stem
  (if truthy artist then artist else inf.1,
   if truthy title then title else inf.2.1,
   if truthy album then album else inf.2.2,
   duration)

/-- One search result of the lookup service, with the fields read by
choose_best_result and fetch_lyrics_from_lrclib; an absent JSON field is
None. -/
structure LookupCandidate where
  trackName : Option String
  name : Option String
  artistName : Option String
  instrumental : Bool
  syncedLyrics : Option String
  plainLyrics : Option String
  deriving DecidableEq

/-- The per-candidate score computed inside the loop of
choose_best_result, given the normalized query title and artist. -/
def scoreIn (nt na : String) (r : LookupCandidate) : Nat :=
  let r_title := normalize (orStr r.trackName (orStr r.name ""))
  let r_artist := normalize (orStr r.artistName "")
  let title_match := !nt.data.isEmpty && (r_title == nt)
  let artist_match := !na.data.isEmpty && (r_artist == na)
  if title_match && artist_match then 2
  else if title_match || artist_match then 1
  else 0

/-- The scanning loop of choose_best_result: keep the running best pair of
score and candidate, replacing it only on a strictly larger score. -/
def chooseLoop (nt na : String) :
    List LookupCandidate → Option (Nat × LookupCandidate) → Option (Nat × LookupCandidate)
  | [], best => best
  | r :: rs, best =>
    let score := scoreIn nt na r
    let best' :=
      match best with
      | none => some (score, r)
      | some (bs, br) => if score > bs then some (score, r) else some (bs, br)
    chooseLoop nt na rs best'

/-- Embeds choose_best_result of lyricfinder.py. -/
def choose_best_result (results : List LookupCandidate)
    (title artist : Option String) : Option LookupCandidate :=
  if results.isEmpty then none
  else if !truthy title && !truthy artist then results.head?
  else
    let nt := normalize (title.getD "")
    let na := normalize (artist.getD "")
    match chooseLoop nt na results none with
    | some (_, r) => some r
    | none => results.head?

/-- Embeds the lyrics-shape decision of fetch_lyrics_from_lrclib applied
to the selected candidate (the lines after choose_best_result): an
instrumental candidate yields no lyrics, otherwise synced lyrics with
non-whitespace content win over plain lyrics, otherwise plain lyrics with
non-whitespace content, otherwise nothing.  The Boolean of the pair is the
is-synced flag of the source. -/
def lyricsFromBest (best : LookupCandidate) : Option String × Bool :=
  if best.instrumental then (none, false)
  else
    let synced := orStr best.syncedLyrics ""
    let plain := orStr best.plainLyrics ""
    if !(pyStrip synced.data).isEmpty then (some synced, true)
    else if !(pyStrip plain.data).isEmpty then (some plain, false)
    else (none, false)

/-- Line-boundary characters of Python str.splitlines. -/
def isPyLineBreak (c : Char) : Bool :=
  c == '\n' || c == '\r' || c == '\x0b' || c == '\x0c' ||
  c == '\x1c' || c == '\x1d' || c == '\x1e' || c == '\x85' ||
  c == '\u2028' || c == '\u2029'

/-- Worker of splitlines: the first argument collects the current line in
reverse; a carriage return followed by a newline counts as one boundary,
and a boundary at the very end does not open a further line. -/
def splitlinesAux : List Char → List Char → List (List Char)
  | cur, [] => if cur.isEmpty then [] else [cur.reverse]
  | cur, '\r' :: '\n' :: cs => cur.reverse :: splitlinesAux [] cs
  | cur, c :: cs =>
    if isPyLineBreak c then cur.reverse :: splitlinesAux [] cs
    else splitlinesAux (c :: cur) cs

/-- Python str.splitlines on a character list. -/
def splitlines (l : List Char) : List (List Char) := splitlinesAux [] l

/-- The zero-timestamp marker prepended to each non-blank line of plain
lyrics. -/
def stampMark : List Char := "[00:00.00] ".data

/-- Embeds make_unsynced_lrc of lyricfinder.py: stamp each non-blank line
with the zero timestamp, keep blank lines empty, join with newlines,
strip trailing whitespace and append one newline. -/
def make_unsynced_lrc (plain_lyrics : String) : String :=
  let lines := splitlines plain_lyrics.data
  let out_lines := lines.map (fun line =>
    if !(pyStrip line).isEmpty then stampMark ++ line else [])
  String.mk (pyRstrip (List.intercalate ['\n'] out_lines) ++ ['\n'])

/-- Modelled from the spec: the candidate-scoring rule of the Candidate
Selector in its own words, two when normalized title and artist equality
both hold, one when exactly one of them holds, zero otherwise, where
equality against an absent or empty normalized query field never counts. -/
def scoreSpec (title artist : Option String) (r : LookupCandidate) : Nat :=
  let nt := normalize (title.getD "")
  let na := normalize (artist.getD "")
  let tMatch := !nt.data.isEmpty && (normalize (orStr r.trackName (orStr r.name "")) == nt)
  let aMatch := !na.data.isEmpty && (normalize (orStr r.artistName "") == na)
  if tMatch && aMatch then 2
  else if (tMatch && !aMatch) || (!tMatch && aMatch) then 1
  else 0

/-- Modelled from the spec: select the element with the strictly highest
value of f, ties keeping the first-encountered element in input order. -/
def firstWinsBest (f : LookupCandidate → Nat) : List LookupCandidate → Option LookupCandidate
  | [] => none
  | x :: xs =>
    match firstWinsBest f xs with
    | none => some x
    | some y => if f x < f y then some y else some x

/-- Modelled from the spec: join lines with single newlines between them. -/
def joinLines : List (List Char) → List Char
  | [] => []
  | [l] => l
  | l :: ls => l ++ '\n' :: joinLines ls

/-- Modelled from the spec: the plain-payload rendering rule in the words
of the spec, a line is blank unless it contains a non-whitespace
character, non-blank lines receive the zero-timestamp marker, lines are
joined with newlines, trailing whitespace is trimmed and exactly one
newline appended. -/
def renderPlainSpec (p : String) : String :=
  let stamped := (splitlines p.data).map (fun line =>
    if line.any (fun c => !isPySpace c) then stampMark ++ line else [])
  String.mk (pyRstrip (joinLines stamped) ++ ['\n'])

theorem pyStrip_eq_nil_iff (l : List Char) : pyStrip l = [] ↔ ∀ c ∈ l, isPySpace c := by
  unfold pyStrip
  rw [List.reverse_eq_nil_iff, List.dropWhile_eq_nil_iff]
  simp only [List.mem_reverse]
  constructor
  · intro h c hc
    rw [← List.takeWhile_append_dropWhile (p := isPySpace) (l := l)] at hc
    rcases List.mem_append.1 hc with h1 | h2
    · exact List.mem_takeWhile_imp h1
    · exact h c h2
  · intro h c hc
    exact h c ((List.dropWhile_sublist _).subset hc)

theorem pyStrip_ne_nil_iff (l : List Char) : pyStrip l ≠ [] ↔ ∃ c ∈ l, ¬ isPySpace c := by
  rw [Ne, pyStrip_eq_nil_iff]
  push_neg
  rfl

theorem firstWinsBest_eq_none_iff (f : LookupCandidate → Nat) (l : List LookupCandidate) :
    firstWinsBest f l = none ↔ l = [] := by
  cases l with
  | nil => simp [firstWinsBest]
  | cons x xs =>
    simp only [firstWinsBest]
    cases h : firstWinsBest f xs with
    | none => simp [h]
    | some y =>
      simp only [h]
      split <;> simp

theorem firstWinsBest_mem (f : LookupCandidate → Nat) (l : List LookupCandidate) :
    ∀ y, firstWinsBest f l = some y → y ∈ l := by
  induction l with
  | nil => intro y h; simp [firstWinsBest] at h
  | cons x xs ih =>
    intro y h
    simp only [firstWinsBest] at h
    cases hx : firstWinsBest f xs with
    | none =>
      rw [hx] at h
      simp only [Option.some.injEq] at h
      simp [← h]
    | some z =>
      rw [hx] at h
      simp only at h
      split at h <;> simp only [Option.some.injEq] at h
      · exact h ▸ List.mem_cons_of_mem _ (ih z hx)
      · simp [← h]

theorem firstWinsBest_all_zero (f : LookupCandidate → Nat) (l : List LookupCandidate)
    (h : ∀ x ∈ l, f x = 0) : firstWinsBest f l = l.head? := by
  induction l with
  | nil => rfl
  | cons x xs ih =>
    simp only [firstWinsBest]
    rw [ih (fun z hz => h z (List.mem_cons_of_mem _ hz))]
    cases xs with
    | nil => rfl
    | cons b bs =>
      simp only [List.head?]
      rw [h x (List.mem_cons_self _ _), h b (List.mem_cons_of_mem _ (List.mem_cons_self _ _))]
      simp

theorem chooseLoop_some (nt na : String) (l : List LookupCandidate) :
    ∀ (s : Nat) (b : LookupCandidate),
      chooseLoop nt na l (some (s, b)) =
        some ((firstWinsBest (scoreIn nt na) l).elim (s, b) (fun y =>
          if s < scoreIn nt na y then (scoreIn nt na y, y) else (s, b))) := by
  induction l with
  | nil => intro s b; rfl
  | cons r rs ih =>
    intro s b
    have hstep : chooseLoop nt na (r :: rs) (some (s, b)) =
        chooseLoop nt na rs
          (if scoreIn nt na r > s then some (scoreIn nt na r, r) else some (s, b)) := rfl
    rw [hstep]
    by_cases hc : s < scoreIn nt na r
    · rw [if_pos hc, ih]
      cases h : firstWinsBest (scoreIn nt na) rs with
      | none =>
        simp only [firstWinsBest, h, Option.elim_none, Option.elim_some]
        split_ifs <;> first | rfl | omega
      | some y =>
        simp only [firstWinsBest, h, Option.elim_some]
        split_ifs <;> simp only [Option.elim_some] <;> split_ifs <;> first | rfl | omega
        
    · rw [if_neg hc, ih]
      cases h : firstWinsBest (scoreIn nt na) rs with
      | none =>
        simp only [firstWinsBest, h, Option.elim_none, Option.elim_some]
        split_ifs <;> first | rfl | omega
      | some y =>
        simp only [firstWinsBest, h, Option.elim_some]
        split_ifs <;> simp only [Option.elim_some] <;> split_ifs <;> first | rfl | omega
        

theorem scoreIfs (tm am : Bool) :
    (if tm && am then 2 else if (tm && !am) || (!tm && am) then 1 else 0) =
    (if tm && am then 2 else if tm || am then 1 else 0) := by
  cases tm <;> cases am <;> rfl

theorem scoreSpec_eq_scoreIn (t a : Option String) (r : LookupCandidate) :
    scoreSpec t a r = scoreIn (normalize (t.getD "")) (normalize (a.getD "")) r := by
  simp only [scoreSpec, scoreIn]
  exact scoreIfs _ _

theorem scoreIn_empty (r : LookupCandidate) : scoreIn "" "" r = 0 := rfl

theorem normalize_getD_falsy (t : Option String) (h : truthy t = false) :
    normalize (t.getD "") = "" := by
  cases t with
  | none => rfl
  | some s =>
    cases s with
    | mk data =>
      simp only [truthy, Bool.not_eq_false', List.isEmpty_eq_true] at h
      subst h
      rfl

theorem choose_spec (results : List LookupCandidate) (t a : Option String) :
    choose_best_result results t a =
      firstWinsBest (scoreIn (normalize (t.getD "")) (normalize (a.getD ""))) results := by
  cases results with
  | nil => rfl
  | cons r rs =>
    show (if (r :: rs).isEmpty then none
          else if !truthy t && !truthy a then (r :: rs).head?
          else _) = _
    rw [if_neg (by simp)]
    by_cases hT : (!truthy t && !truthy a) = true
    · rw [if_pos hT]
      have ht : truthy t = false := by
        rcases Bool.and_eq_true_iff.1 hT with ⟨h1, _⟩
        simpa using h1
      have ha : truthy a = false := by
        rcases Bool.and_eq_true_iff.1 hT with ⟨_, h2⟩
        simpa using h2
      rw [firstWinsBest_all_zero]
      intro x _
      rw [normalize_getD_falsy t ht, normalize_getD_falsy a ha]
      exact scoreIn_empty x
    · rw [if_neg hT]
      have hloop : chooseLoop (normalize (t.getD "")) (normalize (a.getD "")) (r :: rs) none =
          chooseLoop (normalize (t.getD "")) (normalize (a.getD "")) rs
            (some (scoreIn (normalize (t.getD "")) (normalize (a.getD "")) r, r)) := rfl
      cases h : firstWinsBest (scoreIn (normalize (t.getD "")) (normalize (a.getD ""))) rs with
      | none =>
        simp only [hloop, chooseLoop_some, h, Option.elim, firstWinsBest]
      | some y =>
        by_cases hy : scoreIn (normalize (t.getD "")) (normalize (a.getD "")) r <
            scoreIn (normalize (t.getD "")) (normalize (a.getD "")) y
        · simp only [hloop, chooseLoop_some, h, Option.elim, if_pos hy, firstWinsBest]
        · simp only [hloop, chooseLoop_some, h, Option.elim, if_neg hy, firstWinsBest]

theorem truthy_some_iff (s : String) : truthy (some s) = true ↔ s ≠ "" := by
  have hdat : ("" : String).data = [] := rfl
  simp only [truthy, Bool.not_eq_true', List.isEmpty_eq_false, ne_eq, String.ext_iff, hdat]

/-- Example candidates used by concrete witnesses. -/
def cTitleA : LookupCandidate := ⟨some "A", none, some "X", false, none, none⟩

/-- Example candidates used by concrete witnesses. -/
def cTitleB : LookupCandidate := ⟨some "B", none, some "Y", false, none, none⟩

/-- Example candidates used by concrete witnesses. -/
def cSolo : LookupCandidate := ⟨some "S", none, some "Z", false, none, none⟩

/-- Example candidates used by concrete witnesses. -/
def cTen : LookupCandidate := ⟨some "T", none, some "U", false, none, none⟩

/-- Example candidates used by concrete witnesses. -/
def cTen2 : LookupCandidate := ⟨some "V", none, some "W", false, none, none⟩

/-- C3: for every non-empty candidate list and a query with at least one of
title and artist present, choose_best_result scores each candidate by the
spec rule embedded in scoreSpec (two when both normalized equalities hold,
one when exactly one holds, zero otherwise, an absent or empty normalized
query field never matching) and returns the candidate with the strictly
highest score, the first-encountered candidate winning ties, which is what
firstWinsBest computes scanning in input order. -/
theorem lf_C3 (results : List LookupCandidate) (title artist : Option String)
    (h1 : results ≠ []) (h2 : title ≠ none ∨ artist ≠ none) :
    choose_best_result results title artist =
      firstWinsBest (scoreSpec title artist) results := by
  have hfun : scoreSpec title artist =
      scoreIn (normalize (title.getD "")) (normalize (artist.getD "")) :=
    funext fun r => scoreSpec_eq_scoreIn title artist r
  rw [hfun]
  exact choose_spec results title artist

/-- Witness for C3 at the spec example: query title b and artist y select
the second candidate, which scores two. -/
theorem lf_C3_witness :
    choose_best_result [cTitleA, cTitleB] (some "b") (some "y") =
      firstWinsBest (scoreSpec (some "b") (some "y")) [cTitleA, cTitleB] ∧
    choose_best_result [cTitleA, cTitleB] (some "b") (some "y") = some cTitleB :=
  ⟨lf_C3 [cTitleA, cTitleB] (some "b") (some "y") (by decide) (Or.inl (by decide)),
   by decide⟩

/-- C4: choose_best_result returns none exactly on the empty candidate
list; with both query fields absent it returns the first candidate without
scoring; and when every candidate scores zero it still returns the first
candidate scanned rather than none. -/
theorem lf_C4 (results : List LookupCandidate) (title artist : Option String) :
    (choose_best_result results title artist = none ↔ results = []) ∧
    (title = none → artist = none →
      choose_best_result results title artist = results.head?) ∧
    ((∀ x ∈ results, scoreSpec title artist x = 0) →
      choose_best_result results title artist = results.head?) := by
  have hfun : scoreSpec title artist =
      scoreIn (normalize (title.getD "")) (normalize (artist.getD "")) :=
    funext fun r => scoreSpec_eq_scoreIn title artist r
  refine ⟨?_, ?_, ?_⟩
  · rw [choose_spec]
    exact firstWinsBest_eq_none_iff _ _
  · intro ht ha
    subst ht
    subst ha
    rw [choose_spec]
    apply firstWinsBest_all_zero
    intro x _
    exact scoreIn_empty x
  · intro hz
    rw [choose_spec]
    apply firstWinsBest_all_zero
    intro x hx
    rw [← hfun]
    exact hz x hx

/-- Witness for C4: a singleton list with no query identity yields its
only candidate, and the empty list yields none. -/
theorem lf_C4_witness :
    choose_best_result [cSolo] none none = some cSolo ∧
    choose_best_result ([] : List LookupCandidate) (some "t") (some "a") = none := by
  constructor
  · have h := (lf_C4 [cSolo] none none).2.1 rfl rfl
    simpa using h
  · exact (lf_C4 [] (some "t") (some "a")).1.mpr rfl

/-- C10: whatever choose_best_result returns is an element of the input
candidate list, and a none result happens only for the empty list. -/
theorem lf_C10 (results : List LookupCandidate) (title artist : Option String) :
    (∀ c, choose_best_result results title artist = some c → c ∈ results) ∧
    (choose_best_result results title artist = none → results = []) := by
  constructor
  · intro c hc
    rw [choose_spec] at hc
    exact firstWinsBest_mem _ _ c hc
  · intro hn
    rw [choose_spec] at hn
    exact (firstWinsBest_eq_none_iff _ _).1 hn

/-- Witness for C10: the selected candidate of a two-element list is a
member of that list. -/
theorem lf_C10_witness :
    choose_best_result [cTen, cTen2] (some "v") none = some cTen2 ∧
    cTen2 ∈ [cTen, cTen2] := by
  refine ⟨by decide, ?_⟩
  exact (lf_C10 [cTen, cTen2] (some "v") none).1 cTen2 (by decide)

/-- C9: a tag-reader failure never propagates out of get_metadata: the
exception outcome (and likewise an unrecognized container) produces the
path-only inference result with an absent duration, as a total function
returning to the caller. -/
theorem lf_C9 (e : Unit) (rel_parts : List String) (stem : String) :
    get_metadata (Except.error e) rel_parts stem =
      ((infer_from_path rel_parts stem).1, (infer_from_path rel_parts stem).2.1,
       (infer_from_path rel_parts stem).2.2, none) ∧
    get_metadata (Except.ok none) rel_parts stem =
      ((infer_from_path rel_parts stem).1, (infer_from_path rel_parts stem).2.1,
       (infer_from_path rel_parts stem).2.2, none) := by
  constructor <;> rfl

/-- C5: get_metadata keeps a present non-empty tag field for each of
artist, title and album, and falls back to the corresponding inferred
field when the tag field is absent or the empty string. -/
theorem lf_C5 (a : AudioFileData) (rel_parts : List String) (stem : String) :
    ((∀ s, a.artist = some s → s ≠ "" →
        (get_metadata (Except.ok (some a)) rel_parts stem).1 = some s) ∧
     ((a.artist = none ∨ a.artist = some "") →
        (get_metadata (Except.ok (some a)) rel_parts stem).1 =
          (infer_from_path rel_parts stem).1)) ∧
    ((∀ s, a.title = some s → s ≠ "" →
        (get_metadata (Except.ok (some a)) rel_parts stem).2.1 = some s) ∧
     ((a.title = none ∨ a.title = some "") →
        (get_metadata (Except.ok (some a)) rel_parts stem).2.1 =
          (infer_from_path rel_parts stem).2.1)) ∧
    ((∀ s, a.album = some s → s ≠ "" →
        (get_metadata (Except.ok (some a)) rel_parts stem).2.2.1 = some s) ∧
     ((a.album = none ∨ a.album = some "") →
        (get_metadata (Except.ok (some a)) rel_parts stem).2.2.1 =
          (infer_from_path rel_parts stem).2.2)) := by
  refine ⟨⟨?_, ?_⟩, ⟨?_, ?_⟩, ⟨?_, ?_⟩⟩
  · intro s hs hne
    simp only [get_metadata, hs, (truthy_some_iff s).2 hne, if_true]
  · intro h
    rcases h with h | h <;> simp only [get_metadata, h] <;> rfl
  · intro s hs hne
    simp only [get_metadata, hs, (truthy_some_iff s).2 hne, if_true]
  · intro h
    rcases h with h | h <;> simp only [get_metadata, h] <;> rfl
  · intro s hs hne
    simp only [get_metadata, hs, (truthy_some_iff s).2 hne, if_true]
  · intro h
    rcases h with h | h <;> simp only [get_metadata, h] <;> rfl

/-- Witness for C5 at a concrete tag set: a non-empty tag title wins, an
empty tag artist and an absent tag album fall back to inference. -/
theorem lf_C5_witness :
    (get_metadata (Except.ok (some ⟨some "TagTitle", some "", none, some 200⟩))
        ["ArtistDir", "AlbumDir", "song.flac"] "song").2.1 = some "TagTitle" ∧
    (get_metadata (Except.ok (some ⟨some "TagTitle", some "", none, some 200⟩))
        ["ArtistDir", "AlbumDir", "song.flac"] "song").1 =
      (infer_from_path ["ArtistDir", "AlbumDir", "song.flac"] "song").1 ∧
    (get_metadata (Except.ok (some ⟨some "TagTitle", some "", none, some 200⟩))
        ["ArtistDir", "AlbumDir", "song.flac"] "song").2.2.1 =
      (infer_from_path ["ArtistDir", "AlbumDir", "song.flac"] "song").2.2 := by
  refine ⟨?_, ?_, ?_⟩
  · exact (lf_C5 ⟨some "TagTitle", some "", none, some 200⟩
      ["ArtistDir", "AlbumDir", "song.flac"] "song").2.1.1 "TagTitle" rfl (by decide)
  · exact (lf_C5 ⟨some "TagTitle", some "", none, some 200⟩
      ["ArtistDir", "AlbumDir", "song.flac"] "song").1.2 (Or.inr rfl)
  · exact (lf_C5 ⟨some "TagTitle", some "", none, some 200⟩
      ["ArtistDir", "AlbumDir", "song.flac"] "song").2.2.2 (Or.inl rfl)

theorem orStr_some_of_ne (s d : String) (h : s.data ≠ []) : orStr (some s) d = s := by
  simp [orStr, h]

theorem data_ne_nil_of_mem {s : String} {c : Char} (hc : c ∈ s.data) : s.data ≠ [] := by
  intro h0
  rw [h0] at hc
  cases hc

/-- C6: the lyrics-shape decision on the selected candidate: an
instrumental candidate yields no lyrics whatever the lyrics fields hold;
otherwise synced lyrics containing a non-whitespace character are returned
as the synced payload, ignoring plain lyrics entirely; otherwise plain
lyrics containing a non-whitespace character are returned as the plain
payload; otherwise no lyrics. -/
theorem lf_C6 (c : LookupCandidate) :
    (c.instrumental = true → lyricsFromBest c = (none, false)) ∧
    (c.instrumental = false → ∀ s, c.syncedLyrics = some s →
      (∃ ch ∈ s.data, ¬ isPySpace ch) → lyricsFromBest c = (some s, true)) ∧
    (c.instrumental = false → (∀ ch ∈ (orStr c.syncedLyrics "").data, isPySpace ch) →
      ∀ p, c.plainLyrics = some p → (∃ ch ∈ p.data, ¬ isPySpace ch) →
      lyricsFromBest c = (some p, false)) ∧
    (c.instrumental = false → (∀ ch ∈ (orStr c.syncedLyrics "").data, isPySpace ch) →
      (∀ ch ∈ (orStr c.plainLyrics "").data, isPySpace ch) →
      lyricsFromBest c = (none, false)) := by
  refine ⟨?_, ?_, ?_, ?_⟩
  · intro hI
    simp [lyricsFromBest, hI]
  · intro hI s hs hex
    rcases hex with ⟨ch, hch, hcs⟩
    have hd : s.data ≠ [] := data_ne_nil_of_mem hch
    have hstrip : pyStrip s.data ≠ [] := (pyStrip_ne_nil_iff _).2 ⟨ch, hch, hcs⟩
    simp only [lyricsFromBest, hI, Bool.false_eq_true, if_false, hs,
      orStr_some_of_ne s "" hd]
    rw [if_pos (by simp [List.isEmpty_eq_false.mpr hstrip])]
  · intro hI hsync p hp hex
    rcases hex with ⟨ch, hch, hcs⟩
    have hd : p.data ≠ [] := data_ne_nil_of_mem hch
    have hstrip : pyStrip p.data ≠ [] := (pyStrip_ne_nil_iff _).2 ⟨ch, hch, hcs⟩
    have hsync0 : pyStrip (orStr c.syncedLyrics "").data = [] :=
      (pyStrip_eq_nil_iff _).2 hsync
    simp only [lyricsFromBest, hI, Bool.false_eq_true, if_false, hp,
      orStr_some_of_ne p "" hd, hsync0]
    rw [if_neg (by simp), if_pos (by simp [List.isEmpty_eq_false.mpr hstrip])]
  · intro hI hsync hplain
    have hsync0 : pyStrip (orStr c.syncedLyrics "").data = [] :=
      (pyStrip_eq_nil_iff _).2 hsync
    have hplain0 : pyStrip (orStr c.plainLyrics "").data = [] :=
      (pyStrip_eq_nil_iff _).2 hplain
    simp only [lyricsFromBest, hI, Bool.false_eq_true, if_false, hsync0, hplain0]
    rw [if_neg (by simp), if_neg (by simp)]

/-- Witness for C6: an instrumental candidate with both lyrics fields
populated yields nothing, and a candidate with both fields populated and
not instrumental yields the synced payload. -/
theorem lf_C6_witness :
    lyricsFromBest ⟨none, none, none, true, some "[00:01.00] la", some "words"⟩ =
      (none, false) ∧
    lyricsFromBest ⟨none, none, none, false, some "[00:01.00] la", some "words"⟩ =
      (some "[00:01.00] la", true) := by
  constructor
  · exact (lf_C6 ⟨none, none, none, true, some "[00:01.00] la", some "words"⟩).1 rfl
  · exact (lf_C6 ⟨none, none, none, false, some "[00:01.00] la", some "words"⟩).2.1 rfl
      "[00:01.00] la" rfl ⟨'l', by decide, by decide⟩

theorem pyStrip_isEmpty_any (l : List Char) :
    (!(pyStrip l).isEmpty) = l.any (fun c => !isPySpace c) := by
  by_cases h : ∀ c ∈ l, isPySpace c
  · have h0 : pyStrip l = [] := (pyStrip_eq_nil_iff l).2 h
    rw [h0]
    simp only [List.isEmpty_nil, Bool.not_true]
    symm
    rw [List.any_eq_false]
    intro c hc
    simp [h c hc]
  · push_neg at h
    rcases h with ⟨c, hc, hcs⟩
    have h0 : pyStrip l ≠ [] := (pyStrip_ne_nil_iff l).2 ⟨c, hc, hcs⟩
    rw [List.isEmpty_eq_false.mpr h0]
    simp only [Bool.not_false]
    symm
    rw [List.any_eq_true]
    exact ⟨c, hc, by simpa using hcs⟩

theorem intercalate_newline_eq_joinLines (ls : List (List Char)) :
    List.intercalate ['\n'] ls = joinLines ls := by
  induction ls with
  | nil => rfl
  | cons l ls ih =>
    cases ls with
    | nil => simp [List.intercalate, List.intersperse, joinLines]
    | cons m ms =>
      have ih2 : (List.intersperse ['\n'] (m :: ms)).flatten = joinLines (m :: ms) := ih
      show (l :: ['\n'] :: List.intersperse ['\n'] (m :: ms)).flatten = joinLines (l :: m :: ms)
      rw [List.flatten_cons, List.flatten_cons, ih2]
      simp only [joinLines, List.singleton_append]

/-- C7: rendering a plain payload splits the text into lines, stamps each
non-blank line with the zero-timestamp marker, preserves blank lines
unmarked, joins with newlines, trims trailing whitespace and appends
exactly one newline, agreeing with the spec-worded renderPlainSpec on
every payload; and the spec example renders as stated. -/
theorem lf_C7 :
    (∀ p : String, make_unsynced_lrc p = renderPlainSpec p) ∧
    make_unsynced_lrc "Line one\n\nLine two" =
      "[00:00.00] Line one\n\n[00:00.00] Line two\n" := by
  constructor
  · intro p
    simp only [make_unsynced_lrc, renderPlainSpec, intercalate_newline_eq_joinLines,
      pyStrip_isEmpty_any]
  · decide

/-- C1 amended: the filename split on the dash separator applies only when
the relative-segment list is empty, because any first segment (for a
root-level file, the filename itself, extension included) becomes the
artist and suppresses the split; when the segment list is empty the split
behaves as the claim describes. -/
theorem lf_C1_amended :
    (∀ (name stem : String), name ≠ "" →
      (infer_from_path [name] stem).1 = some name) ∧
    infer_from_path [] "Artist Name - Song Title" =
      (some "Artist Name", some "Song Title", none) := by
  constructor
  · intro name stem hname
    have ht : truthy (some name) = true := (truthy_some_iff name).2 hname
    have hd : name.data ≠ [] := by
      intro h0
      exact hname (String.ext h0)
    simp [infer_from_path, ht, orNoneO, orNone, hd]
  · decide

/-- Counterexample for C1: at the claim's own example filename placed as a
single-segment path, the inferred artist is the whole filename with its
extension, not the left part of the dash split. -/
theorem lf_C1_counterexample :
    infer_from_path ["Artist Name - Song Title.ext"]
        (pyStemS "Artist Name - Song Title.ext") =
      (some "Artist Name - Song Title.ext", some "Artist Name - Song Title", none) ∧
    ¬ (infer_from_path ["Artist Name - Song Title.ext"]
        (pyStemS "Artist Name - Song Title.ext")).1 = some "Artist Name" := by
  decide

/-- Witness for C1: the single-segment rule applied at the example
filename. -/
theorem lf_C1_witness :
    (infer_from_path ["Artist Name - Song Title.ext"]
        (pyStemS "Artist Name - Song Title.ext")).1 =
      some "Artist Name - Song Title.ext" :=
  lf_C1_amended.1 "Artist Name - Song Title.ext"
    (pyStemS "Artist Name - Song Title.ext") (by decide)

/-- C2 amended: the dash and dot track-number prefixes are stripped, but
an underscore separator is replaced by a space before the prefix regex
runs, so the prefix no longer matches and the title keeps the number. -/
theorem lf_C2_amended :
    (infer_from_path ["01 - Song Name.ext"] (pyStemS "01 - Song Name.ext")).2.1 =
      some "Song Name" ∧
    (infer_from_path ["01.Song Name.ext"] (pyStemS "01.Song Name.ext")).2.1 =
      some "Song Name" ∧
    (infer_from_path ["01_Song Name.ext"] (pyStemS "01_Song Name.ext")).2.1 =
      some "01 Song Name" := by
  decide

/-- Counterexample for C2: the underscore-separated filename of the claim
does not yield the title of the claim. -/
theorem lf_C2_counterexample :
    ¬ (infer_from_path ["01_Song Name.ext"] (pyStemS "01_Song Name.ext")).2.1 =
      some "Song Name" := by
  decide

/-- C8 amended: when the third segment matches the disc pattern, the album
is the second segment with the third appended after one space, its case
preserved exactly as written in the path, so a lowercase cd2 segment gives
a lowercase disc token. -/
theorem lf_C8_amended (a b c : String) (rest : List String) (stem : String)
    (h : matchesCdDisc c.data = true) :
    (infer_from_path (a :: b :: c :: rest) stem).2.2 = some (b ++ " " ++ c) := by
  have hsp : (" " : String).data = [' '] := rfl
  have hne : (b ++ " " ++ c).data ≠ [] := by
    simp [String.data_append, hsp]
  simp [infer_from_path, h, orNoneO, orNone, hne]

/-- Witness for C8 at the claim's example path. -/
theorem lf_C8_witness :
    (infer_from_path ["artist", "album", "cd2", "song.ext"] (pyStemS "song.ext")).2.2 =
      some ("album" ++ " " ++ "cd2") ∧
    ("album" ++ " " ++ "cd2" : String) = "album cd2" := by
  constructor
  · exact lf_C8_amended "artist" "album" "cd2" ["song.ext"] (pyStemS "song.ext") (by decide)
  · decide

/-- Counterexample for C8: at the claim's example path with a lowercase
disc folder, the album keeps the lowercase token, not the uppercase one of
the claim. -/
theorem lf_C8_counterexample :
    (infer_from_path ["artist", "album", "cd2", "song.ext"] (pyStemS "song.ext")).2.2 =
      some "album cd2" ∧
    ¬ (infer_from_path ["artist", "album", "cd2", "song.ext"] (pyStemS "song.ext")).2.2 =
      some "album CD2" := by
  decide

end LyricFinder
